import Mathlib

/-!
Verification development for the DAO engagement-sync repository.

The repository ships `src/client/examples/engagement-sync-example.ts`, a
caller of three components (`RateLimitManager`, `SyncLogger`,
`EngagementSyncService`) whose implementation files are not part of the
source tree.  Those components are therefore modelled here from the
specification (`spec.md`), faithful to its words; each such definition is
marked `Modelled from the spec:`.  Times are millisecond epoch values
(`Millis`), matching the example's use of `Date.now()`-style timestamps
and its `${stats.syncDuration}ms` display.
-/

abbrev Millis := Nat

/-- Number of milliseconds in one day. -/
def msPerDay : Millis := 24 * 60 * 60 * 1000

/-- Cooldown length after an API failure: 15 minutes, in milliseconds. -/
def cooldownMs : Millis := 15 * 60 * 1000

/-- Modelled from the spec: the RateWindow record of the Rate Budget
Tracker (`RateLimitManager`, not under src/): window end, window length,
requests consumed, requests allowed. -/
structure RateWindow where
  windowEnd : Millis
  windowLength : Millis
  consumed : Nat
  allowed : Nat
deriving DecidableEq, Repr

/-- Result of a `reserve` call: granted, or denied with the wait until the
window resets. -/
structure ReserveResult where
  granted : Bool
  waitMs : Millis
deriving DecidableEq, Repr

/-- Modelled from the spec: on `reserve`, if `now >= windowEnd`, reset
`consumed = 0` and recompute `windowEnd = now + windowLength` before
evaluating; deny if `consumed + n > allowed`, otherwise grant and
increment `consumed` by `n`. -/
def resetIfExpired (w : RateWindow) (now : Millis) : RateWindow :=
  if w.windowEnd ≤ now then
    { w with consumed := 0, windowEnd := now + w.windowLength }
  else
    w

/-- Modelled from the spec: `reserve(n)` of the Rate Budget Tracker
(`RateLimitManager.reserve`, not under src/). Never blocks; returns the
decision together with the updated window. -/
def reserve (w : RateWindow) (n : Nat) (now : Millis) : ReserveResult × RateWindow :=
  let w := resetIfExpired w now
  if w.allowed < w.consumed + n then
    ({ granted := false, waitMs := w.windowEnd - now }, w)
  else
    ({ granted := true, waitMs := 0 }, { w with consumed := w.consumed + n })

/-- Modelled from the spec: `recordWindowFromResponse(limit, remaining,
resetAt)` reconciles local tracking with the authoritative server values,
overwriting local `allowed`, `consumed` and window end. -/
def recordWindowFromResponse (w : RateWindow) (limit remaining resetAt : Nat) :
    RateWindow :=
  { w with allowed := limit, consumed := limit - remaining, windowEnd := resetAt }

/-- Observability record returned by `usageSnapshot`. -/
structure UsageSnapshot where
  consumed : Nat
  allowed : Nat
  msUntilReset : Millis
deriving DecidableEq, Repr

/-- Modelled from the spec: `usageSnapshot()` of the Rate Budget Tracker
(surfaced as `RateLimitManager.getUsageStats` in the example): current
consumed/allowed and time-to-reset. -/
def usageSnapshot (w : RateWindow) (now : Millis) : UsageSnapshot :=
  { consumed := w.consumed, allowed := w.allowed, msUntilReset := w.windowEnd - now }

/-- Run a sequence of `reserve` calls, threading the window state;
each element of the list is a pair of the requested amount and the time
of the call. -/
def reserveSeq (w : RateWindow) (calls : List (Nat × Millis)) : RateWindow :=
  calls.foldl (fun w c => (reserve w c.1 c.2).2) w

/-- Severity levels of the Sync Log, as in the example's `LogLevel`. -/
inductive LogLevel
  | debug
  | info
  | warn
  | error
deriving DecidableEq, Repr

/-- One entry of the append-only Sync Log. -/
structure LogEntry where
  timestamp : Millis
  level : LogLevel
  message : String
deriving DecidableEq, Repr

/-- Engagement metrics of a post: like, repost, reply and quote counts. -/
structure EngagementMetrics where
  likeCount : Nat
  repostCount : Nat
  replyCount : Nat
  quoteCount : Nat
deriving DecidableEq, Repr

/-- One item of a fetched account timeline. -/
structure TimelineItem where
  id : Nat
  createdAt : Millis
  metrics : EngagementMetrics
deriving DecidableEq, Repr

/-- A stored Post record: identifier, owning account, creation time,
engagement metrics, last-synced timestamp. -/
structure Post where
  id : Nat
  accountId : Nat
  createdAt : Millis
  metrics : EngagementMetrics
  lastSynced : Millis
deriving DecidableEq, Repr

/-- Per-run statistics, with the field names the example reads
(`totalTweetsProcessed`, `tweetsUpdated`, `tweetsAdded`,
`apiRequestsUsed`, `syncDuration`, `errors`). -/
structure SyncRunStats where
  startTime : Millis
  syncDuration : Millis
  accountsProcessed : Nat
  totalTweetsProcessed : Nat
  tweetsUpdated : Nat
  tweetsAdded : Nat
  apiRequestsUsed : Nat
  errors : List String
deriving DecidableEq, Repr

/-- Orchestrator configuration, with the option names the example passes
to `EngagementSyncService`. -/
structure SyncConfig where
  daysToLookBack : Nat
  syncIntervalHours : Nat
  maxRequestsPerBatch : Nat
deriving DecidableEq, Repr

/-- Modelled from the spec: the remote timeline API collaborator
(external interface, §6), as deterministic response functions: list
recent timeline items for an account, and fetch current engagement
metrics for an item id.  A `.error` value is an account-level API
failure (HTTP error, malformed payload, authentication failure). -/
structure TwitterApi where
  fetchTimeline : Nat → Except String (List TimelineItem)
  fetchMetrics : Nat → Except String EngagementMetrics

/-- Modelled from the spec: the data store collaborator — tracked
accounts (by id) and the stored posts. -/
structure DataStore where
  accounts : List Nat
  posts : List Post
deriving DecidableEq, Repr

/-- Does the store already hold a post with this id? -/
def hasId (posts : List Post) (i : Nat) : Bool :=
  posts.any (fun p => p.id = i)

/-- Build a Post record from a fetched timeline item. -/
def mkPost (a : Nat) (now : Millis) (it : TimelineItem) : Post :=
  { id := it.id, accountId := a, createdAt := it.createdAt,
    metrics := it.metrics, lastSynced := now }

/-- Modelled from the spec: the store's insert is idempotent — inserting
an already-present id is a no-op, not a duplicate.  Returns the new
store and whether an insert actually happened. -/
def insertIfNew (posts : List Post) (p : Post) : List Post × Bool :=
  if hasId posts p.id then (posts, false) else (posts ++ [p], true)

/-- Overwrite (not merge) the metric fields and last-synced timestamp of
the post with the given id. -/
def updateMetrics (posts : List Post) (i : Nat) (m : EngagementMetrics)
    (now : Millis) : List Post :=
  posts.map (fun p => if p.id = i then { p with metrics := m, lastSynced := now } else p)

/-- Mutable state threaded through one sync run. -/
structure RunState where
  posts : List Post
  tracker : RateWindow
  tweetsAdded : Nat
  tweetsUpdated : Nat
  apiRequestsUsed : Nat
  accountsProcessed : Nat
  errors : List String
  warnings : List String
deriving DecidableEq, Repr

/-- Insert the fetched items whose ids are not yet present, counting each
actual insert in `tweetsAdded` (spec step d). -/
def insertNewItems (a : Nat) (now : Millis) (st : RunState) :
    List TimelineItem → RunState
  | [] => st
  | it :: rest =>
      let ins := insertIfNew st.posts (mkPost a now it)
      insertNewItems a now
        (if ins.2 then
          { st with posts := ins.1, tweetsAdded := st.tweetsAdded + 1 }
        else
          { st with posts := ins.1 }) rest

/-- Modelled from the spec (step e): for known items, reserve budget for
a metrics-refresh request; on grant, fetch current metrics, overwrite the
post's metric fields and last-synced timestamp, and count the update; a
denial skips the remaining refreshes; an API failure is appended to the
error list and processing moves on to the next account (step f). -/
def refreshKnown (api : TwitterApi) (now : Millis) (st : RunState) :
    List TimelineItem → RunState
  | [] => st
  | it :: rest =>
      let r := reserve st.tracker 1 now
      if r.1.granted then
        match api.fetchMetrics it.id with
        | .ok m =>
            refreshKnown api now
              { st with
                tracker := r.2,
                posts := updateMetrics st.posts it.id m now,
                tweetsUpdated := st.tweetsUpdated + 1,
                apiRequestsUsed := st.apiRequestsUsed + 1 } rest
        | .error e =>
            { st with
              tracker := r.2,
              apiRequestsUsed := st.apiRequestsUsed + 1,
              errors := st.errors ++ [e] }
      else
        { st with tracker := r.2 }

/-- The warning recorded when an account's discovery request is denied by
the Rate Budget Tracker. -/
def rateLimitWarning (a : Nat) : String :=
  "rate limited - skipping account " ++ toString a

/-- Modelled from the spec (sync algorithm, step 2): process one tracked
account — reserve budget for one discovery request (on denial record a
rate-limit warning and skip the account), fetch the timeline items at or
after the cutoff, insert the new ones, and refresh metrics of known ones
up to `maxRequestsPerBatch`; an account-level fetch failure is appended
to the error list and the run continues with the next account. -/
def processAccount (api : TwitterApi) (cfg : SyncConfig) (cutoff now : Millis)
    (st : RunState) (a : Nat) : RunState :=
  let st := { st with accountsProcessed := st.accountsProcessed + 1 }
  let r := reserve st.tracker 1 now
  if r.1.granted then
    let st := { st with tracker := r.2, apiRequestsUsed := st.apiRequestsUsed + 1 }
    match api.fetchTimeline a with
    | .error e => { st with errors := st.errors ++ [e] }
    | .ok rawItems =>
        let items := rawItems.filter (fun it => cutoff ≤ it.createdAt)
        let knownItems := items.filter (fun it => hasId st.posts it.id)
        let st := insertNewItems a now st items
        refreshKnown api now st (knownItems.take cfg.maxRequestsPerBatch)
  else
    { st with tracker := r.2, warnings := st.warnings ++ [rateLimitWarning a] }

/-- The run state at the start of a run. -/
def initialRunState (posts : List Post) (tracker : RateWindow) : RunState :=
  { posts := posts, tracker := tracker, tweetsAdded := 0, tweetsUpdated := 0,
    apiRequestsUsed := 0, accountsProcessed := 0, errors := [], warnings := [] }

/-- Modelled from the spec: one full sync pass — compute the lookback
cutoff and walk the tracked accounts sequentially. -/
def runSync (api : TwitterApi) (cfg : SyncConfig) (store : DataStore)
    (tracker : RateWindow) (now : Millis) : RunState :=
  store.accounts.foldl
    (processAccount api cfg (now - cfg.daysToLookBack * msPerDay) now)
    (initialRunState store.posts tracker)

/-- Control errors signalled synchronously to the caller of `runOnce`. -/
inductive ControlError
  | alreadyRunning
  | coolingDown (remainingMs : Millis)
deriving DecidableEq, Repr

/-- Modelled from the spec: the Sync Orchestrator's own state — the
active-run flag, the optional cooldown (until-timestamp and triggering
error), the scheduler flag, the last run's stats, and the shared rate
tracker. -/
structure Orchestrator where
  running : Bool
  cooldown : Option (Millis × String)
  schedulerEnabled : Bool
  lastRunStats : Option SyncRunStats
  tracker : RateWindow
deriving DecidableEq, Repr

/-- Everything observable after a `runOnce` call: the result handed to
the caller, the updated orchestrator, the updated store, and the log
entries emitted for the run. -/
structure RunOutcome where
  result : Except ControlError SyncRunStats
  orch : Orchestrator
  store : DataStore
  log : List LogEntry

/-- Modelled from the spec: execute the sync algorithm and finalize — on
no account-level failure the orchestrator ends Idle; on at least one, it
enters CoolingDown with cooldown-until = now + 15 minutes and the first
encountered error as trigger. -/
def executeRun (api : TwitterApi) (cfg : SyncConfig) (o : Orchestrator)
    (store : DataStore) (startNow endNow : Millis) : RunOutcome :=
  let rs := runSync api cfg store o.tracker startNow
  let stats : SyncRunStats :=
    { startTime := startNow,
      syncDuration := endNow - startNow,
      accountsProcessed := rs.accountsProcessed,
      totalTweetsProcessed := rs.tweetsAdded + rs.tweetsUpdated,
      tweetsUpdated := rs.tweetsUpdated,
      tweetsAdded := rs.tweetsAdded,
      apiRequestsUsed := rs.apiRequestsUsed,
      errors := rs.errors }
  { result := .ok stats,
    orch := { o with
              running := false,
              tracker := rs.tracker,
              lastRunStats := some stats,
              cooldown := (match rs.errors with
                | [] => none
                | e :: _ => some (endNow + cooldownMs, e)) },
    store := { store with posts := rs.posts },
    log := rs.warnings.map (fun m =>
      { timestamp := endNow, level := LogLevel.warn, message := m }) }

/-- Modelled from the spec: `runOnce()` — fail with AlreadyRunningError
while a run is in progress; fail with CoolingDownError (carrying the
remaining duration) while an unexpired cooldown is active; otherwise run
the sync algorithm.  `startNow` and `endNow` are the wall-clock instants
at which the run starts and completes. -/
def runOnce (api : TwitterApi) (cfg : SyncConfig) (o : Orchestrator)
    (store : DataStore) (startNow endNow : Millis) : RunOutcome :=
  if o.running then
    { result := .error ControlError.alreadyRunning, orch := o, store := store, log := [] }
  else
    match o.cooldown with
    | some (untilMs, _) =>
        if startNow < untilMs then
          { result := .error (ControlError.coolingDown (untilMs - startNow)),
            orch := o, store := store, log := [] }
        else
          executeRun api cfg { o with cooldown := none } store startNow endNow
    | none => executeRun api cfg o store startNow endNow

/-- The record returned by `status()` / `getSyncStatus`. -/
structure SyncStatus where
  isRunning : Bool
  isCoolingDown : Bool
  cooldownRemainingMs : Millis
  schedulerEnabled : Bool
  lastRun : Option SyncRunStats
deriving DecidableEq, Repr

/-- Modelled from the spec: `status()` — current state, last run stats,
active cooldown info (a cooldown counts as active only until its
until-timestamp), and the scheduler flag. -/
def getSyncStatus (o : Orchestrator) (now : Millis) : SyncStatus :=
  { isRunning := o.running,
    isCoolingDown := (match o.cooldown with
      | some (u, _) => decide (now < u)
      | none => false),
    cooldownRemainingMs := (match o.cooldown with
      | some (u, _) => u - now
      | none => 0),
    schedulerEnabled := o.schedulerEnabled,
    lastRun := o.lastRunStats }

/-- Aggregated statistics returned by `getAggregatedStats`, with the
field names the example reads. -/
structure AggregatedStats where
  syncCount : Nat
  totalTweetsProcessed : Nat
  totalApiRequests : Nat
  totalErrors : Nat
  averageSyncTime : Millis
deriving DecidableEq, Repr

/-- The Sync Log: append-only entries plus the persisted run-stats
records. -/
structure SyncLogger where
  entries : List LogEntry
  runStats : List SyncRunStats
deriving DecidableEq, Repr

/-- Is a run-stats record's start time within the aggregation window
[now - windowDays, now]? -/
def inAggWindow (windowDays : Nat) (now : Millis) (r : SyncRunStats) : Bool :=
  decide (now - windowDays * msPerDay ≤ r.startTime) && decide (r.startTime ≤ now)

/-- Modelled from the spec: `aggregate(windowDays)` / `getAggregatedStats`
— scan run-stats records started within the window and return count,
sums and average duration; an empty window yields an absent result, not
a zero-filled record. -/
def getAggregatedStats (lg : SyncLogger) (windowDays : Nat) (now : Millis) :
    Option AggregatedStats :=
  let inWindow := lg.runStats.filter (inAggWindow windowDays now)
  if inWindow.isEmpty then
    none
  else
    some { syncCount := inWindow.length,
           totalTweetsProcessed := (inWindow.map (fun r => r.totalTweetsProcessed)).sum,
           totalApiRequests := (inWindow.map (fun r => r.apiRequestsUsed)).sum,
           totalErrors := (inWindow.map (fun r => r.errors.length)).sum,
           averageSyncTime := (inWindow.map (fun r => r.syncDuration)).sum / inWindow.length }

/-- A `runOnce` call at time `now` is not blocked by a control error: no
run is in progress and any active cooldown has expired. -/
def canStart (o : Orchestrator) (now : Millis) : Bool :=
  !o.running &&
    (match o.cooldown with
     | some (u, _) => decide (u ≤ now)
     | none => true)

/-- Concrete configuration used in the closed evaluations below. -/
def cfgEx : SyncConfig := ⟨5, 2, 10⟩

/-- A rate window with plenty of budget. -/
def trkEx : RateWindow := ⟨1000000, 900000, 0, 50⟩

/-- A rate window with budget for exactly one request. -/
def trkTight : RateWindow := ⟨1000000, 900000, 0, 1⟩

/-- A rate window with no budget at all. -/
def trkZero : RateWindow := ⟨1000000, 900000, 0, 0⟩

/-- Placeholder metrics value. -/
def metZero : EngagementMetrics := ⟨0, 0, 0, 0⟩

/-- A concrete timeline item. -/
def itemEx : TimelineItem := ⟨101, 999999, metZero⟩

/-- An API whose every call succeeds and every timeline holds `itemEx`. -/
def apiOk : TwitterApi := ⟨fun _ => Except.ok [itemEx], fun _ => Except.ok metZero⟩

/-- An API for which account 1's timeline fetch fails. -/
def apiBoom : TwitterApi :=
  ⟨fun a => if a = 1 then Except.error "http 500" else Except.ok [],
   fun _ => Except.ok metZero⟩

/-- A store tracking accounts 1 and 2, with no posts yet. -/
def storeEx : DataStore := ⟨[1, 2], []⟩

/-- An idle orchestrator with a generous rate window. -/
def oIdle : Orchestrator := ⟨false, none, false, none, trkEx⟩

/-- An idle orchestrator with budget for one request. -/
def oTight : Orchestrator := ⟨false, none, false, none, trkTight⟩

/-- An idle orchestrator with no budget. -/
def oZero : Orchestrator := ⟨false, none, false, none, trkZero⟩

/-- An orchestrator with a run in progress. -/
def oBusy : Orchestrator := ⟨true, none, false, none, trkEx⟩

/-- Number of stored posts carrying a given id. -/
def idCount (posts : List Post) (i : Nat) : Nat :=
  posts.countP (fun p => p.id = i)

/-- Every API call of this collaborator succeeds. -/
def allCallsOk (api : TwitterApi) : Prop :=
  (∀ a, ∃ items, api.fetchTimeline a = Except.ok items) ∧
  (∀ i, ∃ m, api.fetchMetrics i = Except.ok m)

/-- The stats record produced by `runOnce apiOk cfgEx oIdle storeEx 10 25`. -/
def statsEx : SyncRunStats := ⟨10, 15, 2, 2, 1, 1, 3, []⟩

/-- A log holding one run-stats record. -/
def lgEx : SyncLogger := ⟨[], [statsEx]⟩

/-- The aggregation of `lgEx` over the last 7 days seen from time 20. -/
def aggEx : AggregatedStats := ⟨1, 2, 3, 0, 15⟩

theorem reserve_consumed_le (w : RateWindow) (n : Nat) (now : Millis)
    (h : w.consumed ≤ w.allowed) :
    (reserve w n now).2.consumed ≤ (reserve w n now).2.allowed := by
  simp only [reserve, resetIfExpired]
  split <;> split <;> simp_all

theorem reserveSeq_consumed_le (w : RateWindow) (calls : List (Nat × Millis))
    (h : w.consumed ≤ w.allowed) :
    (reserveSeq w calls).consumed ≤ (reserveSeq w calls).allowed := by
  induction calls generalizing w with
  | nil => exact h
  | cons c rest ih =>
      simp only [reserveSeq, List.foldl_cons]
      exact ih _ (reserve_consumed_le w c.1 c.2 h)

/-- C3: for every sequence of `reserve(n)` calls, `consumed ≤ allowed`
holds after each call (given it held initially); a single call is denied
exactly when, after the window-expiry reset, `consumed + n > allowed`; a
denied call leaves `consumed` unchanged (relative to the post-reset
window, hence unchanged whenever the call falls inside the current
window); a granted call increments `consumed` by `n`. -/
theorem rateWindow_reserve_invariant (w : RateWindow) (calls : List (Nat × Millis))
    (n : Nat) (now : Millis) (h : w.consumed ≤ w.allowed) :
    (reserveSeq w calls).consumed ≤ (reserveSeq w calls).allowed ∧
    ((reserve w n now).1.granted = false ↔
      (resetIfExpired w now).allowed < (resetIfExpired w now).consumed + n) ∧
    ((reserve w n now).1.granted = false →
      (reserve w n now).2.consumed = (resetIfExpired w now).consumed) ∧
    ((reserve w n now).1.granted = false → now < w.windowEnd →
      (reserve w n now).2.consumed = w.consumed) ∧
    ((reserve w n now).1.granted = true →
      (reserve w n now).2.consumed = (resetIfExpired w now).consumed + n) := by
  refine ⟨reserveSeq_consumed_le w calls h, ?_, ?_, ?_, ?_⟩ <;>
    · simp only [reserve, resetIfExpired]
      split <;> split <;> simp_all

/-- Witness for C3 at concrete inputs. -/
theorem rateWindow_reserve_invariant_witness :
    (0 : Nat) ≤ 5 ∧
    ((reserveSeq ⟨100, 50, 0, 5⟩ [(2, 10), (2, 10), (2, 10)]).consumed ≤
      (reserveSeq ⟨100, 50, 0, 5⟩ [(2, 10), (2, 10), (2, 10)]).allowed ∧
    ((reserve ⟨100, 50, 0, 5⟩ 3 10).1.granted = false ↔
      (resetIfExpired ⟨100, 50, 0, 5⟩ 10).allowed <
        (resetIfExpired ⟨100, 50, 0, 5⟩ 10).consumed + 3) ∧
    ((reserve ⟨100, 50, 0, 5⟩ 3 10).1.granted = false →
      (reserve ⟨100, 50, 0, 5⟩ 3 10).2.consumed =
        (resetIfExpired ⟨100, 50, 0, 5⟩ 10).consumed) ∧
    ((reserve ⟨100, 50, 0, 5⟩ 3 10).1.granted = false → 10 < (100 : Nat) →
      (reserve ⟨100, 50, 0, 5⟩ 3 10).2.consumed = 0) ∧
    ((reserve ⟨100, 50, 0, 5⟩ 3 10).1.granted = true →
      (reserve ⟨100, 50, 0, 5⟩ 3 10).2.consumed =
        (resetIfExpired ⟨100, 50, 0, 5⟩ 10).consumed + 3)) :=
  ⟨by decide, rateWindow_reserve_invariant ⟨100, 50, 0, 5⟩ [(2, 10), (2, 10), (2, 10)] 3 10 (by decide)⟩

/-- C6: after `recordWindowFromResponse(limit, remaining, resetAt)`,
`usageSnapshot()` returns exactly the server-provided values — allowed is
the server limit, consumed is limit minus remaining, and the time to
reset is derived from `resetAt` — regardless of whatever the local
tracker held before the call. -/
theorem recordWindow_overrides_snapshot (w : RateWindow)
    (limit remaining resetAt now : Nat) :
    usageSnapshot (recordWindowFromResponse w limit remaining resetAt) now =
      { consumed := limit - remaining, allowed := limit,
        msUntilReset := resetAt - now } ∧
    ∀ w' : RateWindow,
      usageSnapshot (recordWindowFromResponse w limit remaining resetAt) now =
        usageSnapshot (recordWindowFromResponse w' limit remaining resetAt) now := by
  exact ⟨rfl, fun w' => rfl⟩

theorem executeRun_result (api : TwitterApi) (cfg : SyncConfig) (o : Orchestrator)
    (store : DataStore) (t0 t1 : Millis) :
    (executeRun api cfg o store t0 t1).result =
      Except.ok
        { startTime := t0,
          syncDuration := t1 - t0,
          accountsProcessed := (runSync api cfg store o.tracker t0).accountsProcessed,
          totalTweetsProcessed := (runSync api cfg store o.tracker t0).tweetsAdded
            + (runSync api cfg store o.tracker t0).tweetsUpdated,
          tweetsUpdated := (runSync api cfg store o.tracker t0).tweetsUpdated,
          tweetsAdded := (runSync api cfg store o.tracker t0).tweetsAdded,
          apiRequestsUsed := (runSync api cfg store o.tracker t0).apiRequestsUsed,
          errors := (runSync api cfg store o.tracker t0).errors } := rfl

/-- C2: while a run is in progress (`running` set), `runOnce()` fails
with AlreadyRunningError and does not start a second run: the
orchestrator (including its last-run stats and rate tracker), the store,
and the log are exactly as before the rejected call. -/
theorem runOnce_alreadyRunning (api : TwitterApi) (cfg : SyncConfig)
    (o : Orchestrator) (store : DataStore) (t0 t1 : Millis)
    (h : o.running = true) :
    (runOnce api cfg o store t0 t1).result
        = Except.error ControlError.alreadyRunning ∧
    (runOnce api cfg o store t0 t1).orch = o ∧
    (runOnce api cfg o store t0 t1).store = store ∧
    (runOnce api cfg o store t0 t1).log = [] := by
  simp [runOnce, h]

/-- Witness for C2 at a concrete input. -/
theorem runOnce_alreadyRunning_witness :
    oBusy.running = true ∧
    ((runOnce apiOk cfgEx oBusy storeEx 10 25).result
        = Except.error ControlError.alreadyRunning ∧
      (runOnce apiOk cfgEx oBusy storeEx 10 25).orch = oBusy ∧
      (runOnce apiOk cfgEx oBusy storeEx 10 25).store = storeEx ∧
      (runOnce apiOk cfgEx oBusy storeEx 10 25).log = []) :=
  ⟨rfl, runOnce_alreadyRunning apiOk cfgEx oBusy storeEx 10 25 rfl⟩

/-- C5: a `runOnce()` call not blocked by a control error returns a
completed SyncRunStats object whose error list is exactly the list of
failures the sync pass collected — per-account API failures land in that
list and are never thrown to the caller. -/
theorem runOnce_not_blocked_returns_stats (api : TwitterApi) (cfg : SyncConfig)
    (o : Orchestrator) (store : DataStore) (t0 t1 : Millis)
    (h : canStart o t0 = true) :
    ∃ stats, (runOnce api cfg o store t0 t1).result = Except.ok stats ∧
      stats.errors = (runSync api cfg store o.tracker t0).errors := by
  have hr : o.running = false := by
    unfold canStart at h
    cases hor : o.running <;> rw [hor] at h <;> simp_all
  unfold runOnce
  rw [hr]
  simp only [Bool.false_eq_true, if_false]
  cases hc : o.cooldown with
  | none => exact ⟨_, rfl, rfl⟩
  | some p =>
      obtain ⟨u, e⟩ := p
      have hu : u ≤ t0 := by
        unfold canStart at h
        rw [hr, hc] at h
        simpa using h
      dsimp only
      rw [if_neg (Nat.not_lt.mpr hu)]
      exact ⟨_, rfl, rfl⟩

/-- Witness for C5 at a concrete input with a failing account: the call
still returns stats, with the failure captured in the error list. -/
theorem runOnce_not_blocked_returns_stats_witness :
    canStart oIdle 10 = true ∧
    ∃ stats, (runOnce apiBoom cfgEx oIdle storeEx 10 25).result = Except.ok stats ∧
      stats.errors = (runSync apiBoom cfgEx storeEx oIdle.tracker 10).errors :=
  ⟨by decide, runOnce_not_blocked_returns_stats apiBoom cfgEx oIdle storeEx 10 25 (by decide)⟩

/-- C10: for every completed run, the `syncDuration` of the returned
SyncRunStats is the elapsed wall-clock time from run start to run
completion — a difference of millisecond timestamps, hence itself in
milliseconds and non-negative. -/
theorem runStats_syncDuration_ms (api : TwitterApi) (cfg : SyncConfig)
    (o : Orchestrator) (store : DataStore) (t0 t1 : Millis) (stats : SyncRunStats)
    (h : (runOnce api cfg o store t0 t1).result = Except.ok stats) :
    stats.syncDuration = t1 - t0 ∧ 0 ≤ stats.syncDuration := by
  refine ⟨?_, Nat.zero_le _⟩
  unfold runOnce at h
  split at h
  · simp at h
  · split at h
    · split at h
      · simp at h
      · rw [executeRun_result] at h
        rw [← Except.ok.inj h]
    · rw [executeRun_result] at h
      rw [← Except.ok.inj h]

/-- Witness for C10 at a concrete input. -/
theorem runStats_syncDuration_ms_witness :
    (runOnce apiOk cfgEx oIdle storeEx 10 25).result = Except.ok statsEx ∧
    statsEx.syncDuration = 25 - 10 ∧ 0 ≤ statsEx.syncDuration :=
  ⟨rfl, runStats_syncDuration_ms apiOk cfgEx oIdle storeEx 10 25 statsEx rfl⟩

/-- Helper: a call that passes the control checks executes the sync pass
and hands its finalized stats back. -/
theorem runOnce_admitted (api : TwitterApi) (cfg : SyncConfig)
    (o : Orchestrator) (store : DataStore) (t0 t1 : Millis)
    (h : canStart o t0 = true) :
    ∃ stats, (runOnce api cfg o store t0 t1).result = Except.ok stats ∧
      stats.errors = (runSync api cfg store o.tracker t0).errors := by
  have hr : o.running = false := by
    unfold canStart at h
    cases hor : o.running <;> rw [hor] at h <;> simp_all
  unfold runOnce
  rw [hr]
  simp only [Bool.false_eq_true, if_false]
  cases hc : o.cooldown with
  | none => exact ⟨_, rfl, rfl⟩
  | some p =>
      obtain ⟨u, e⟩ := p
      have hu : u ≤ t0 := by
        unfold canStart at h
        rw [hr, hc] at h
        simpa using h
      dsimp only
      rw [if_neg (Nat.not_lt.mpr hu)]
      exact ⟨_, rfl, rfl⟩

/-- C8: aggregation over a window holding no run is the absent value, not
a zero-filled record; with at least one run in the window, the result
carries the run count, the sums of tweets processed, API requests and
error counts, and the average duration, over exactly the in-window
runs. -/
theorem aggregate_empty_vs_sums (lg : SyncLogger) (windowDays : Nat) (now : Millis) :
    (getAggregatedStats lg windowDays now = none ↔
      ∀ r ∈ lg.runStats,
        r.startTime < now - windowDays * msPerDay ∨ now < r.startTime) ∧
    (∀ agg, getAggregatedStats lg windowDays now = some agg →
      agg.syncCount = (lg.runStats.filter (inAggWindow windowDays now)).length ∧
      0 < agg.syncCount ∧
      agg.totalTweetsProcessed =
        ((lg.runStats.filter (inAggWindow windowDays now)).map
          (fun r => r.totalTweetsProcessed)).sum ∧
      agg.totalApiRequests =
        ((lg.runStats.filter (inAggWindow windowDays now)).map
          (fun r => r.apiRequestsUsed)).sum ∧
      agg.totalErrors =
        ((lg.runStats.filter (inAggWindow windowDays now)).map
          (fun r => r.errors.length)).sum ∧
      agg.averageSyncTime =
        ((lg.runStats.filter (inAggWindow windowDays now)).map
          (fun r => r.syncDuration)).sum / agg.syncCount) := by
  have hiff : ∀ r : SyncRunStats, (inAggWindow windowDays now r = false ↔
      r.startTime < now - windowDays * msPerDay ∨ now < r.startTime) := by
    intro r
    simp only [inAggWindow, Bool.and_eq_false_iff, decide_eq_false_iff_not, Nat.not_le]
  simp only [getAggregatedStats]
  by_cases hE : (lg.runStats.filter (inAggWindow windowDays now)).isEmpty
  · rw [if_pos hE]
    constructor
    · simp only [true_iff]
      intro r hr
      rw [← hiff]
      rw [List.isEmpty_iff] at hE
      by_contra hcon
      have : inAggWindow windowDays now r = true := by
        cases hx : inAggWindow windowDays now r
        · exact absurd hx hcon
        · rfl
      exact absurd (List.mem_filter.mpr ⟨hr, this⟩) (by rw [hE]; exact List.not_mem_nil r)
    · intro agg hagg
      exact absurd hagg (by simp)
  · rw [if_neg hE]
    constructor
    · constructor
      · intro hcon
        exact absurd hcon (by simp)
      · intro hall
        rw [List.isEmpty_iff] at hE
        refine absurd (List.filter_eq_nil_iff.mpr ?_) hE
        intro r hr
        rw [Bool.not_eq_true, hiff]
        exact hall r hr
    · intro agg hagg
      rw [← Option.some.inj hagg]
      refine ⟨rfl, ?_, rfl, rfl, rfl, rfl⟩
      rw [List.isEmpty_iff] at hE
      exact List.length_pos.mpr hE

/-- Witness for C8 at a concrete input with one in-window run. -/
theorem aggregate_empty_vs_sums_witness :
    getAggregatedStats lgEx 7 20 = some aggEx ∧
    (aggEx.syncCount = (lgEx.runStats.filter (inAggWindow 7 20)).length ∧
      0 < aggEx.syncCount ∧
      aggEx.totalTweetsProcessed =
        ((lgEx.runStats.filter (inAggWindow 7 20)).map
          (fun r => r.totalTweetsProcessed)).sum ∧
      aggEx.totalApiRequests =
        ((lgEx.runStats.filter (inAggWindow 7 20)).map
          (fun r => r.apiRequestsUsed)).sum ∧
      aggEx.totalErrors =
        ((lgEx.runStats.filter (inAggWindow 7 20)).map
          (fun r => r.errors.length)).sum ∧
      aggEx.averageSyncTime =
        ((lgEx.runStats.filter (inAggWindow 7 20)).map
          (fun r => r.syncDuration)).sum / aggEx.syncCount) :=
  ⟨rfl, (aggregate_empty_vs_sums lgEx 7 20).2 aggEx rfl⟩

/-- Helper: a call made while an unexpired cooldown is active is
rejected with the remaining duration and changes nothing. -/
theorem runOnce_coolingDown_rejects (api : TwitterApi) (cfg : SyncConfig)
    (o : Orchestrator) (store : DataStore) (t0 t1 u : Millis) (e : String)
    (hr : o.running = false) (hc : o.cooldown = some (u, e)) (ht : t0 < u) :
    runOnce api cfg o store t0 t1 =
      { result := Except.error (ControlError.coolingDown (u - t0)),
        orch := o, store := store, log := [] } := by
  unfold runOnce
  rw [hr]
  simp only [Bool.false_eq_true, if_false]
  rw [hc]
  dsimp only
  rw [if_pos ht]

/-- Helper: the status report marks cooling-down exactly while the
cooldown timestamp lies in the future. -/
theorem getSyncStatus_cooling (o : Orchestrator) (t u : Millis) (e : String)
    (hc : o.cooldown = some (u, e)) :
    (getSyncStatus o t).isCoolingDown = decide (t < u) := by
  unfold getSyncStatus
  dsimp only
  rw [hc]

/-- C1: a run during which at least one account-level API error was
collected ends with the orchestrator in CoolingDown, with cooldown-until
equal to the completion time plus 15 minutes and the first encountered
error as the trigger; at every instant before cooldown-until, any
`runOnce()` fails with CoolingDownError carrying the remaining duration
and `status()` reports cooling down; at any instant from cooldown-until
on, a `runOnce()` is admitted again and returns a completed run. -/
theorem errorRun_coolsDown (api : TwitterApi) (cfg : SyncConfig)
    (o : Orchestrator) (store : DataStore) (t0 t1 : Millis)
    (e : String) (es : List String)
    (hr : o.running = false) (hc : o.cooldown = none)
    (he : (runSync api cfg store o.tracker t0).errors = e :: es) :
    (runOnce api cfg o store t0 t1).orch.cooldown = some (t1 + cooldownMs, e) ∧
    (∀ (api2 : TwitterApi) (cfg2 : SyncConfig) (store2 : DataStore) (t t' : Millis),
      t < t1 + cooldownMs →
      (runOnce api2 cfg2 (runOnce api cfg o store t0 t1).orch store2 t t').result
          = Except.error (ControlError.coolingDown (t1 + cooldownMs - t)) ∧
      (getSyncStatus (runOnce api cfg o store t0 t1).orch t).isCoolingDown = true) ∧
    (∀ (api2 : TwitterApi) (cfg2 : SyncConfig) (store2 : DataStore) (t t' : Millis),
      t1 + cooldownMs ≤ t →
      (∃ stats2,
        (runOnce api2 cfg2 (runOnce api cfg o store t0 t1).orch store2 t t').result
          = Except.ok stats2) ∧
      (getSyncStatus (runOnce api cfg o store t0 t1).orch t).isCoolingDown = false) := by
  have hrun : (runOnce api cfg o store t0 t1).orch.running = false := by
    unfold runOnce
    rw [hr]
    simp only [Bool.false_eq_true, if_false]
    rw [hc]
    rfl
  have ho : (runOnce api cfg o store t0 t1).orch.cooldown = some (t1 + cooldownMs, e) := by
    unfold runOnce
    rw [hr]
    simp only [Bool.false_eq_true, if_false]
    rw [hc]
    unfold executeRun
    dsimp only
    rw [he]
  refine ⟨ho, ?_, ?_⟩
  · intro api2 cfg2 store2 t t' ht
    constructor
    · rw [runOnce_coolingDown_rejects api2 cfg2 _ store2 t t' (t1 + cooldownMs) e
        hrun ho ht]
    · rw [getSyncStatus_cooling _ t (t1 + cooldownMs) e ho]
      exact decide_eq_true ht
  · intro api2 cfg2 store2 t t' ht
    constructor
    · have hcs : canStart (runOnce api cfg o store t0 t1).orch t = true := by
        unfold canStart
        rw [hrun, ho]
        simpa using ht
      obtain ⟨s, hs, _⟩ :=
        runOnce_admitted api2 cfg2 (runOnce api cfg o store t0 t1).orch store2 t t' hcs
      exact ⟨s, hs⟩
    · rw [getSyncStatus_cooling _ t (t1 + cooldownMs) e ho]
      exact decide_eq_false (Nat.not_lt.mpr ht)

/-- Witness for C1 at a concrete input: a run over `apiBoom` (account 1
fails) cools the orchestrator down until 900025; a call at 1000 is
rejected with the remaining duration, a call at 900025 is admitted. -/
theorem errorRun_coolsDown_witness :
    oIdle.running = false ∧ oIdle.cooldown = none ∧
    (runSync apiBoom cfgEx storeEx oIdle.tracker 10).errors = ["http 500"] ∧
    (runOnce apiBoom cfgEx oIdle storeEx 10 25).orch.cooldown
        = some (25 + cooldownMs, "http 500") ∧
    ((runOnce apiOk cfgEx (runOnce apiBoom cfgEx oIdle storeEx 10 25).orch storeEx
        1000 1010).result
      = Except.error (ControlError.coolingDown (25 + cooldownMs - 1000)) ∧
     (getSyncStatus (runOnce apiBoom cfgEx oIdle storeEx 10 25).orch 1000).isCoolingDown
      = true) ∧
    ((∃ stats2,
        (runOnce apiOk cfgEx (runOnce apiBoom cfgEx oIdle storeEx 10 25).orch storeEx
          900025 900030).result = Except.ok stats2) ∧
     (getSyncStatus (runOnce apiBoom cfgEx oIdle storeEx 10 25).orch 900025).isCoolingDown
      = false) :=
  ⟨rfl, rfl, rfl,
    (errorRun_coolsDown apiBoom cfgEx oIdle storeEx 10 25 "http 500" [] rfl rfl rfl).1,
    (errorRun_coolsDown apiBoom cfgEx oIdle storeEx 10 25 "http 500" [] rfl rfl rfl).2.1
      apiOk cfgEx storeEx 1000 1010 (by decide),
    (errorRun_coolsDown apiBoom cfgEx oIdle storeEx 10 25 "http 500" [] rfl rfl rfl).2.2
      apiOk cfgEx storeEx 900025 900030 (by decide)⟩

theorem hasId_false_iff (posts : List Post) (i : Nat) :
    hasId posts i = false ↔ idCount posts i = 0 := by
  simp [hasId, idCount, List.countP_eq_zero]

theorem hasId_true_iff (posts : List Post) (i : Nat) :
    hasId posts i = true ↔ 0 < idCount posts i := by
  simp [hasId, idCount, List.countP_pos_iff]

theorem idCount_append_one (posts : List Post) (p : Post) (i : Nat) :
    idCount (posts ++ [p]) i = idCount posts i + (if p.id = i then 1 else 0) := by
  simp only [idCount, List.countP_append, List.countP_cons, List.countP_nil]
  split <;> simp_all

theorem updateMetrics_idCount (posts : List Post) (j i : Nat)
    (m : EngagementMetrics) (now : Millis) :
    idCount (updateMetrics posts j m now) i = idCount posts i := by
  induction posts with
  | nil => rfl
  | cons p ps ih =>
      simp only [updateMetrics, List.map_cons, idCount, List.countP_cons] at ih ⊢
      split <;> simp_all

theorem updateMetrics_length (posts : List Post) (j : Nat)
    (m : EngagementMetrics) (now : Millis) :
    (updateMetrics posts j m now).length = posts.length := by
  simp [updateMetrics]

theorem insertNewItems_warnings (a : Nat) (now : Millis) (st : RunState)
    (items : List TimelineItem) :
    (insertNewItems a now st items).warnings = st.warnings := by
  induction items generalizing st with
  | nil => rfl
  | cons it rest ih =>
      simp only [insertNewItems]
      split <;> rw [ih]

theorem insertNewItems_errors (a : Nat) (now : Millis) (st : RunState)
    (items : List TimelineItem) :
    (insertNewItems a now st items).errors = st.errors := by
  induction items generalizing st with
  | nil => rfl
  | cons it rest ih =>
      simp only [insertNewItems]
      split <;> rw [ih]

theorem insertNewItems_accountsProcessed (a : Nat) (now : Millis) (st : RunState)
    (items : List TimelineItem) :
    (insertNewItems a now st items).accountsProcessed = st.accountsProcessed := by
  induction items generalizing st with
  | nil => rfl
  | cons it rest ih =>
      simp only [insertNewItems]
      split <;> rw [ih]

theorem insertNewItems_idCount_pres (a : Nat) (now : Millis) (st : RunState)
    (items : List TimelineItem) (i : Nat) (h : 0 < idCount st.posts i) :
    idCount (insertNewItems a now st items).posts i = idCount st.posts i := by
  induction items generalizing st with
  | nil => rfl
  | cons it rest ih =>
      simp only [insertNewItems, insertIfNew]
      by_cases hp : hasId st.posts (mkPost a now it).id = true
      · rw [if_pos hp]
        simp only [if_false, Bool.false_eq_true]
        exact ih st h
      · rw [if_neg hp]
        simp only [if_true]
        rw [ih _ (by
          show 0 < idCount (st.posts ++ [mkPost a now it]) i
          rw [idCount_append_one]
          omega)]
        rw [idCount_append_one]
        have hid : (mkPost a now it).id ≠ i := by
          intro hcon
          rw [Bool.not_eq_true, hasId_false_iff] at hp
          rw [hcon] at hp
          omega
        rw [if_neg hid]
        omega

theorem insertNewItems_idCount_le (a : Nat) (now : Millis) (st : RunState)
    (items : List TimelineItem) (i : Nat) (h : idCount st.posts i ≤ 1) :
    idCount (insertNewItems a now st items).posts i ≤ 1 := by
  induction items generalizing st with
  | nil => exact h
  | cons it rest ih =>
      simp only [insertNewItems, insertIfNew]
      by_cases hp : hasId st.posts (mkPost a now it).id = true
      · rw [if_pos hp]
        simp only [if_false, Bool.false_eq_true]
        exact ih st h
      · rw [if_neg hp]
        simp only [if_true]
        refine ih _ ?_
        show idCount (st.posts ++ [mkPost a now it]) i ≤ 1
        rw [idCount_append_one]
        by_cases hid : (mkPost a now it).id = i
        · rw [Bool.not_eq_true, hasId_false_iff] at hp
          rw [hid] at hp
          rw [if_pos hid]
          omega
        · rw [if_neg hid]
          omega

theorem insertNewItems_inserts (a : Nat) (now : Millis) (st : RunState)
    (items : List TimelineItem) (i : Nat)
    (h0 : idCount st.posts i = 0)
    (hmem : ∃ it ∈ items, it.id = i) :
    idCount (insertNewItems a now st items).posts i = 1 := by
  induction items generalizing st with
  | nil => exact absurd hmem (by simp)
  | cons it rest ih =>
      simp only [insertNewItems, insertIfNew]
      by_cases hid : it.id = i
      · have hp : hasId st.posts (mkPost a now it).id = false := by
          rw [hasId_false_iff]
          show idCount st.posts it.id = 0
          rw [hid]
          exact h0
        rw [hp]
        simp only [Bool.false_eq_true, if_false, if_true]
        rw [insertNewItems_idCount_pres a now _ rest i (by
          show 0 < idCount (st.posts ++ [mkPost a now it]) i
          rw [idCount_append_one]
          have : (mkPost a now it).id = i := hid
          rw [if_pos this]
          omega)]
        show idCount (st.posts ++ [mkPost a now it]) i = 1
        rw [idCount_append_one]
        have : (mkPost a now it).id = i := hid
        rw [if_pos this, h0]
      · obtain ⟨w, hw, hwid⟩ := hmem
        have hwrest : w ∈ rest := by
          cases hw with
          | head => exact absurd hwid hid
          | tail _ h => exact h
        by_cases hp : hasId st.posts (mkPost a now it).id = true
        · rw [if_pos hp]
          simp only [Bool.false_eq_true, if_false]
          exact ih st h0 ⟨w, hwrest, hwid⟩
        · rw [if_neg hp]
          simp only [if_true]
          refine ih _ ?_ ⟨w, hwrest, hwid⟩
          show idCount (st.posts ++ [mkPost a now it]) i = 0
          rw [idCount_append_one]
          have hne : (mkPost a now it).id ≠ i := hid
          rw [if_neg hne, h0]

theorem insertNewItems_len (a : Nat) (now : Millis) (st : RunState)
    (items : List TimelineItem) :
    (insertNewItems a now st items).posts.length + st.tweetsAdded
      = st.posts.length + (insertNewItems a now st items).tweetsAdded := by
  induction items generalizing st with
  | nil => rfl
  | cons it rest ih =>
      simp only [insertNewItems, insertIfNew]
      by_cases hp : hasId st.posts (mkPost a now it).id = true
      · rw [if_pos hp]
        simp only [Bool.false_eq_true, if_false]
        exact ih st
      · rw [if_neg hp]
        simp only [if_true]
        have h2 := ih { st with posts := st.posts ++ [mkPost a now it], tweetsAdded := st.tweetsAdded + 1 }
        dsimp only at h2
        simp only [List.length_append, List.length_cons, List.length_nil] at h2 ⊢
        omega

theorem refreshKnown_warnings (api : TwitterApi) (now : Millis) (st : RunState)
    (items : List TimelineItem) :
    (refreshKnown api now st items).warnings = st.warnings := by
  induction items generalizing st with
  | nil => rfl
  | cons it rest ih =>
      simp only [refreshKnown]
      split
      · split
        · exact ih _
        · rfl
      · rfl

theorem refreshKnown_accountsProcessed (api : TwitterApi) (now : Millis)
    (st : RunState) (items : List TimelineItem) :
    (refreshKnown api now st items).accountsProcessed = st.accountsProcessed := by
  induction items generalizing st with
  | nil => rfl
  | cons it rest ih =>
      simp only [refreshKnown]
      split
      · split
        · exact ih _
        · rfl
      · rfl

theorem refreshKnown_tweetsAdded (api : TwitterApi) (now : Millis)
    (st : RunState) (items : List TimelineItem) :
    (refreshKnown api now st items).tweetsAdded = st.tweetsAdded := by
  induction items generalizing st with
  | nil => rfl
  | cons it rest ih =>
      simp only [refreshKnown]
      split
      · split
        · exact ih _
        · rfl
      · rfl

theorem refreshKnown_idCount (api : TwitterApi) (now : Millis) (st : RunState)
    (items : List TimelineItem) (i : Nat) :
    idCount (refreshKnown api now st items).posts i = idCount st.posts i := by
  induction items generalizing st with
  | nil => rfl
  | cons it rest ih =>
      simp only [refreshKnown]
      split
      · split
        next m heq =>
          rw [ih]
          exact updateMetrics_idCount st.posts it.id i m now
        next e heq => rfl
      · rfl

theorem refreshKnown_posts_length (api : TwitterApi) (now : Millis) (st : RunState)
    (items : List TimelineItem) :
    (refreshKnown api now st items).posts.length = st.posts.length := by
  induction items generalizing st with
  | nil => rfl
  | cons it rest ih =>
      simp only [refreshKnown]
      split
      · split
        next m heq =>
          rw [ih]
          exact updateMetrics_length st.posts it.id m now
        next e heq => rfl
      · rfl

theorem refreshKnown_errors_mono (api : TwitterApi) (now : Millis) (st : RunState)
    (items : List TimelineItem) :
    ∃ tail, (refreshKnown api now st items).errors = st.errors ++ tail := by
  induction items generalizing st with
  | nil => exact ⟨[], (List.append_nil _).symm⟩
  | cons it rest ih =>
      simp only [refreshKnown]
      split
      · split
        · exact ih _
        · exact ⟨_, rfl⟩
      · exact ⟨[], (List.append_nil _).symm⟩

theorem refreshKnown_allOk_errors (api : TwitterApi) (now : Millis) (st : RunState)
    (items : List TimelineItem)
    (hM : ∀ i, ∃ m, api.fetchMetrics i = Except.ok m) :
    (refreshKnown api now st items).errors = st.errors := by
  induction items generalizing st with
  | nil => rfl
  | cons it rest ih =>
      simp only [refreshKnown]
      split
      · obtain ⟨m, hm⟩ := hM it.id
        rw [hm]
        exact ih _
      · rfl

theorem processAccount_warnings_mono (api : TwitterApi) (cfg : SyncConfig)
    (cutoff now : Millis) (st : RunState) (a : Nat) :
    ∃ tail, (processAccount api cfg cutoff now st a).warnings = st.warnings ++ tail := by
  unfold processAccount
  dsimp only
  split
  · cases hF : api.fetchTimeline a with
    | ok rawItems =>
        dsimp only
        rw [refreshKnown_warnings, insertNewItems_warnings]
        exact ⟨[], (List.append_nil _).symm⟩
    | error e =>
        exact ⟨[], (List.append_nil _).symm⟩
  · exact ⟨[rateLimitWarning a], rfl⟩

theorem processAccount_errors_mono (api : TwitterApi) (cfg : SyncConfig)
    (cutoff now : Millis) (st : RunState) (a : Nat) :
    ∃ tail, (processAccount api cfg cutoff now st a).errors = st.errors ++ tail := by
  unfold processAccount
  dsimp only
  split
  · cases hF : api.fetchTimeline a with
    | ok rawItems =>
        dsimp only
        obtain ⟨tail, htail⟩ := refreshKnown_errors_mono api now
          (insertNewItems a now
            { st with
              accountsProcessed := st.accountsProcessed + 1,
              tracker := (reserve st.tracker 1 now).2,
              apiRequestsUsed := st.apiRequestsUsed + 1 }
            (rawItems.filter (fun it => cutoff ≤ it.createdAt)))
          ((rawItems.filter (fun it => cutoff ≤ it.createdAt)).filter
            (fun it => hasId st.posts it.id) |>.take cfg.maxRequestsPerBatch)
        rw [insertNewItems_errors] at htail
        exact ⟨tail, htail⟩
    | error e =>
        exact ⟨[e], rfl⟩
  · exact ⟨[], (List.append_nil _).symm⟩

theorem processAccount_accountsProcessed (api : TwitterApi) (cfg : SyncConfig)
    (cutoff now : Millis) (st : RunState) (a : Nat) :
    (processAccount api cfg cutoff now st a).accountsProcessed
      = st.accountsProcessed + 1 := by
  unfold processAccount
  dsimp only
  split
  · cases hF : api.fetchTimeline a with
    | ok rawItems =>
        dsimp only
        rw [refreshKnown_accountsProcessed, insertNewItems_accountsProcessed]
    | error e => rfl
  · rfl

theorem processAccount_idCount_pres (api : TwitterApi) (cfg : SyncConfig)
    (cutoff now : Millis) (st : RunState) (a i : Nat)
    (h : 0 < idCount st.posts i) :
    idCount (processAccount api cfg cutoff now st a).posts i = idCount st.posts i := by
  unfold processAccount
  dsimp only
  split
  · cases hF : api.fetchTimeline a with
    | ok rawItems =>
        dsimp only
        rw [refreshKnown_idCount, insertNewItems_idCount_pres]
        exact h
    | error e => rfl
  · rfl

theorem processAccount_idCount_le (api : TwitterApi) (cfg : SyncConfig)
    (cutoff now : Millis) (st : RunState) (a i : Nat)
    (h : idCount st.posts i ≤ 1) :
    idCount (processAccount api cfg cutoff now st a).posts i ≤ 1 := by
  unfold processAccount
  dsimp only
  split
  · cases hF : api.fetchTimeline a with
    | ok rawItems =>
        dsimp only
        rw [refreshKnown_idCount]
        exact insertNewItems_idCount_le a now _ _ i h
    | error e =>
        exact h
  · exact h

theorem processAccount_len (api : TwitterApi) (cfg : SyncConfig)
    (cutoff now : Millis) (st : RunState) (a : Nat) :
    (processAccount api cfg cutoff now st a).posts.length + st.tweetsAdded
      = st.posts.length + (processAccount api cfg cutoff now st a).tweetsAdded := by
  unfold processAccount
  dsimp only
  split
  · cases hF : api.fetchTimeline a with
    | ok rawItems =>
        dsimp only
        rw [refreshKnown_posts_length, refreshKnown_tweetsAdded]
        exact insertNewItems_len a now _ _
    | error e => rfl
  · rfl

theorem processAccount_allOk_errors (api : TwitterApi) (cfg : SyncConfig)
    (cutoff now : Millis) (st : RunState) (a : Nat)
    (hok : allCallsOk api) :
    (processAccount api cfg cutoff now st a).errors = st.errors := by
  unfold processAccount
  dsimp only
  split
  · obtain ⟨items, hF⟩ := hok.1 a
    rw [hF]
    dsimp only
    rw [refreshKnown_allOk_errors _ _ _ _ hok.2, insertNewItems_errors]
  · rfl

theorem processAccount_no_error_fetch_ok (api : TwitterApi) (cfg : SyncConfig)
    (cutoff now : Millis) (st : RunState) (a : Nat)
    (h : (processAccount api cfg cutoff now st a).errors = st.errors) :
    (∃ items, api.fetchTimeline a = Except.ok items) ∨
    (processAccount api cfg cutoff now st a).warnings
      = st.warnings ++ [rateLimitWarning a] := by
  unfold processAccount at h ⊢
  dsimp only at h ⊢
  split at h
  next hg =>
    cases hF : api.fetchTimeline a with
    | ok items => exact Or.inl ⟨items, rfl⟩
    | error e =>
        rw [hF] at h
        dsimp only at h
        simp at h
  next hg =>
    right
    rw [if_neg hg]

theorem processAccount_inserts (api : TwitterApi) (cfg : SyncConfig)
    (cutoff now : Millis) (st : RunState) (a i : Nat)
    (items : List TimelineItem) (it : TimelineItem)
    (h0 : idCount st.posts i = 0)
    (hw : (processAccount api cfg cutoff now st a).warnings = st.warnings)
    (hF : api.fetchTimeline a = Except.ok items)
    (hmem : it ∈ items) (hid : it.id = i) (hcut : cutoff ≤ it.createdAt) :
    idCount (processAccount api cfg cutoff now st a).posts i = 1 := by
  unfold processAccount at hw ⊢
  dsimp only at hw ⊢
  split at hw
  next hg =>
    rw [if_pos hg, hF]
    dsimp only
    rw [refreshKnown_idCount]
    refine insertNewItems_inserts a now _ _ i h0 ?_
    exact ⟨it, List.mem_filter.mpr ⟨hmem, decide_eq_true hcut⟩, hid⟩
  next hg =>
    simp at hw

theorem append_growth_nil {α : Type} (xs t1 t2 : List α)
    (h : xs ++ t1 ++ t2 = xs) : t1 = [] ∧ t2 = [] := by
  have hlen := congrArg List.length h
  simp only [List.length_append] at hlen
  have h1 : t1.length = 0 := by omega
  have h2 : t2.length = 0 := by omega
  exact ⟨List.length_eq_zero.mp h1, List.length_eq_zero.mp h2⟩

theorem foldProcess_warnings_mono (api : TwitterApi) (cfg : SyncConfig)
    (cutoff now : Millis) (accounts : List Nat) (st : RunState) :
    ∃ tail, (accounts.foldl (processAccount api cfg cutoff now) st).warnings
      = st.warnings ++ tail := by
  induction accounts generalizing st with
  | nil => exact ⟨[], (List.append_nil _).symm⟩
  | cons b rest ih =>
      simp only [List.foldl_cons]
      obtain ⟨t1, h1⟩ := processAccount_warnings_mono api cfg cutoff now st b
      obtain ⟨t2, h2⟩ := ih (processAccount api cfg cutoff now st b)
      exact ⟨t1 ++ t2, by rw [h2, h1, List.append_assoc]⟩

theorem foldProcess_errors_mono (api : TwitterApi) (cfg : SyncConfig)
    (cutoff now : Millis) (accounts : List Nat) (st : RunState) :
    ∃ tail, (accounts.foldl (processAccount api cfg cutoff now) st).errors
      = st.errors ++ tail := by
  induction accounts generalizing st with
  | nil => exact ⟨[], (List.append_nil _).symm⟩
  | cons b rest ih =>
      simp only [List.foldl_cons]
      obtain ⟨t1, h1⟩ := processAccount_errors_mono api cfg cutoff now st b
      obtain ⟨t2, h2⟩ := ih (processAccount api cfg cutoff now st b)
      exact ⟨t1 ++ t2, by rw [h2, h1, List.append_assoc]⟩

theorem foldProcess_accountsProcessed (api : TwitterApi) (cfg : SyncConfig)
    (cutoff now : Millis) (accounts : List Nat) (st : RunState) :
    (accounts.foldl (processAccount api cfg cutoff now) st).accountsProcessed
      = st.accountsProcessed + accounts.length := by
  induction accounts generalizing st with
  | nil => simp
  | cons b rest ih =>
      simp only [List.foldl_cons, List.length_cons]
      rw [ih, processAccount_accountsProcessed]
      omega

theorem foldProcess_idCount_pres (api : TwitterApi) (cfg : SyncConfig)
    (cutoff now : Millis) (accounts : List Nat) (st : RunState) (i : Nat)
    (h : 0 < idCount st.posts i) :
    idCount (accounts.foldl (processAccount api cfg cutoff now) st).posts i
      = idCount st.posts i := by
  revert h
  induction accounts generalizing st with
  | nil => intro h; rfl
  | cons b rest ih =>
      intro h
      simp only [List.foldl_cons]
      rw [ih _ (by
        rw [processAccount_idCount_pres api cfg cutoff now st b i h]
        exact h)]
      exact processAccount_idCount_pres api cfg cutoff now st b i h

theorem foldProcess_idCount_le (api : TwitterApi) (cfg : SyncConfig)
    (cutoff now : Millis) (accounts : List Nat) (st : RunState) (i : Nat)
    (h : idCount st.posts i ≤ 1) :
    idCount (accounts.foldl (processAccount api cfg cutoff now) st).posts i ≤ 1 := by
  revert h
  induction accounts generalizing st with
  | nil => intro h; exact h
  | cons b rest ih =>
      intro h
      simp only [List.foldl_cons]
      exact ih _ (processAccount_idCount_le api cfg cutoff now st b i h)

theorem foldProcess_len (api : TwitterApi) (cfg : SyncConfig)
    (cutoff now : Millis) (accounts : List Nat) (st : RunState) :
    (accounts.foldl (processAccount api cfg cutoff now) st).posts.length
        + st.tweetsAdded
      = st.posts.length
        + (accounts.foldl (processAccount api cfg cutoff now) st).tweetsAdded := by
  induction accounts generalizing st with
  | nil => rfl
  | cons b rest ih =>
      simp only [List.foldl_cons]
      have h1 := processAccount_len api cfg cutoff now st b
      have h2 := ih (processAccount api cfg cutoff now st b)
      omega

theorem foldProcess_allOk_errors (api : TwitterApi) (cfg : SyncConfig)
    (cutoff now : Millis) (accounts : List Nat) (st : RunState)
    (hok : allCallsOk api) :
    (accounts.foldl (processAccount api cfg cutoff now) st).errors = st.errors := by
  induction accounts generalizing st with
  | nil => rfl
  | cons b rest ih =>
      simp only [List.foldl_cons]
      rw [ih, processAccount_allOk_errors api cfg cutoff now st b hok]

theorem foldProcess_no_errors (api : TwitterApi) (cfg : SyncConfig)
    (cutoff now : Millis) (accounts : List Nat) (st : RunState)
    (h : (accounts.foldl (processAccount api cfg cutoff now) st).errors = st.errors) :
    ∀ a ∈ accounts, (∃ items, api.fetchTimeline a = Except.ok items) ∨
      rateLimitWarning a
        ∈ (accounts.foldl (processAccount api cfg cutoff now) st).warnings := by
  revert h
  induction accounts generalizing st with
  | nil => intro h a ha; exact absurd ha (List.not_mem_nil a)
  | cons b rest ih =>
      intro h a ha
      simp only [List.foldl_cons] at h ⊢
      obtain ⟨t1, h1⟩ := processAccount_errors_mono api cfg cutoff now st b
      obtain ⟨t2, h2⟩ := foldProcess_errors_mono api cfg cutoff now rest
        (processAccount api cfg cutoff now st b)
      have hnil : t1 = [] ∧ t2 = [] := by
        refine append_growth_nil st.errors t1 t2 ?_
        rw [← h1, ← h2]
        exact h
      have hb : (processAccount api cfg cutoff now st b).errors = st.errors := by
        rw [h1, hnil.1, List.append_nil]
      rcases List.mem_cons.mp ha with rfl | hrest
      · rcases processAccount_no_error_fetch_ok api cfg cutoff now st a hb with hx | hwarn
        · exact Or.inl hx
        · right
          obtain ⟨t3, h3⟩ := foldProcess_warnings_mono api cfg cutoff now rest
            (processAccount api cfg cutoff now st a)
          rw [h3, hwarn]
          simp
      · have h' : (rest.foldl (processAccount api cfg cutoff now)
            (processAccount api cfg cutoff now st b)).errors
              = (processAccount api cfg cutoff now st b).errors := by
          rw [h2, hnil.2, List.append_nil]
        exact ih _ h' a hrest

theorem foldProcess_inserts (api : TwitterApi) (cfg : SyncConfig)
    (cutoff now : Millis) (accounts : List Nat) (st : RunState) (i a : Nat)
    (items : List TimelineItem) (it : TimelineItem)
    (h0 : idCount st.posts i = 0)
    (hnw : (accounts.foldl (processAccount api cfg cutoff now) st).warnings
      = st.warnings)
    (ha : a ∈ accounts)
    (hF : api.fetchTimeline a = Except.ok items)
    (hmem : it ∈ items) (hid : it.id = i) (hcut : cutoff ≤ it.createdAt) :
    idCount (accounts.foldl (processAccount api cfg cutoff now) st).posts i = 1 := by
  revert h0 hnw ha
  induction accounts generalizing st with
  | nil => intro h0 hnw ha; exact absurd ha (List.not_mem_nil a)
  | cons b rest ih =>
      intro h0 hnw ha
      simp only [List.foldl_cons] at hnw ⊢
      obtain ⟨t1, h1⟩ := processAccount_warnings_mono api cfg cutoff now st b
      obtain ⟨t2, h2⟩ := foldProcess_warnings_mono api cfg cutoff now rest
        (processAccount api cfg cutoff now st b)
      have hnil : t1 = [] ∧ t2 = [] := by
        refine append_growth_nil st.warnings t1 t2 ?_
        rw [← h1, ← h2]
        exact hnw
      have hwb : (processAccount api cfg cutoff now st b).warnings = st.warnings := by
        rw [h1, hnil.1, List.append_nil]
      rcases List.mem_cons.mp ha with rfl | hrest
      · have hins := processAccount_inserts api cfg cutoff now st a i items it
          h0 hwb hF hmem hid hcut
        rw [foldProcess_idCount_pres api cfg cutoff now rest _ i (by omega), hins]
      · have hw' : (rest.foldl (processAccount api cfg cutoff now)
            (processAccount api cfg cutoff now st b)).warnings
              = (processAccount api cfg cutoff now st b).warnings := by
          rw [h2, hnil.2, List.append_nil]
        rcases Nat.eq_zero_or_pos
            (idCount (processAccount api cfg cutoff now st b).posts i) with hz | hp
        · exact ih _ hz hw' hrest
        · rw [foldProcess_idCount_pres api cfg cutoff now rest _ i hp]
          have hle := processAccount_idCount_le api cfg cutoff now st b i (by omega)
          omega

theorem runSync_accountsProcessed (api : TwitterApi) (cfg : SyncConfig)
    (store : DataStore) (tr : RateWindow) (t0 : Millis) :
    (runSync api cfg store tr t0).accountsProcessed = store.accounts.length := by
  have h := foldProcess_accountsProcessed api cfg
    (t0 - cfg.daysToLookBack * msPerDay) t0 store.accounts
    (initialRunState store.posts tr)
  simpa [runSync, initialRunState] using h

theorem runSync_allOk_errors (api : TwitterApi) (cfg : SyncConfig)
    (store : DataStore) (tr : RateWindow) (t0 : Millis) (hok : allCallsOk api) :
    (runSync api cfg store tr t0).errors = [] := by
  have h := foldProcess_allOk_errors api cfg
    (t0 - cfg.daysToLookBack * msPerDay) t0 store.accounts
    (initialRunState store.posts tr) hok
  simpa [runSync, initialRunState] using h

theorem runSync_len (api : TwitterApi) (cfg : SyncConfig)
    (store : DataStore) (tr : RateWindow) (t0 : Millis) :
    (runSync api cfg store tr t0).posts.length
      = store.posts.length + (runSync api cfg store tr t0).tweetsAdded := by
  have h := foldProcess_len api cfg
    (t0 - cfg.daysToLookBack * msPerDay) t0 store.accounts
    (initialRunState store.posts tr)
  simpa [runSync, initialRunState] using h

theorem runSync_no_errors (api : TwitterApi) (cfg : SyncConfig)
    (store : DataStore) (tr : RateWindow) (t0 : Millis)
    (h : (runSync api cfg store tr t0).errors = []) :
    ∀ a ∈ store.accounts, (∃ items, api.fetchTimeline a = Except.ok items) ∨
      rateLimitWarning a ∈ (runSync api cfg store tr t0).warnings := by
  intro a ha
  have hx := foldProcess_no_errors api cfg
    (t0 - cfg.daysToLookBack * msPerDay) t0 store.accounts
    (initialRunState store.posts tr)
    (by simpa [runSync, initialRunState] using h) a ha
  simpa [runSync] using hx

theorem runSync_inserts (api : TwitterApi) (cfg : SyncConfig)
    (store : DataStore) (tr : RateWindow) (t0 : Millis) (i a : Nat)
    (items : List TimelineItem) (it : TimelineItem)
    (h0 : idCount store.posts i = 0)
    (hnw : (runSync api cfg store tr t0).warnings = [])
    (ha : a ∈ store.accounts)
    (hF : api.fetchTimeline a = Except.ok items)
    (hmem : it ∈ items) (hid : it.id = i)
    (hcut : t0 - cfg.daysToLookBack * msPerDay ≤ it.createdAt) :
    idCount (runSync api cfg store tr t0).posts i = 1 := by
  have hx := foldProcess_inserts api cfg
    (t0 - cfg.daysToLookBack * msPerDay) t0 store.accounts
    (initialRunState store.posts tr) i a items it
    (by simpa [initialRunState] using h0)
    (by simpa [runSync, initialRunState] using hnw)
    ha hF hmem hid hcut
  simpa [runSync] using hx

theorem runSync_idCount_pres (api : TwitterApi) (cfg : SyncConfig)
    (store : DataStore) (tr : RateWindow) (t0 : Millis) (i : Nat)
    (h : 0 < idCount store.posts i) :
    idCount (runSync api cfg store tr t0).posts i = idCount store.posts i := by
  have hx := foldProcess_idCount_pres api cfg
    (t0 - cfg.daysToLookBack * msPerDay) t0 store.accounts
    (initialRunState store.posts tr) i (by simpa [initialRunState] using h)
  simpa [runSync, initialRunState] using hx

/-- Helper: with `canStart`, a `runOnce` call is exactly an `executeRun`
on the cooldown-cleared orchestrator. -/
theorem runOnce_admitted_eq (api : TwitterApi) (cfg : SyncConfig)
    (o : Orchestrator) (store : DataStore) (t0 t1 : Millis)
    (h : canStart o t0 = true) :
    runOnce api cfg o store t0 t1 =
      executeRun api cfg { o with cooldown := none } store t0 t1 := by
  have hr : o.running = false := by
    unfold canStart at h
    cases hor : o.running <;> rw [hor] at h <;> simp_all
  unfold runOnce
  rw [hr]
  simp only [Bool.false_eq_true, if_false]
  cases hc : o.cooldown with
  | none =>
      dsimp only
      have he : (⟨false, none, o.schedulerEnabled, o.lastRunStats, o.tracker⟩
          : Orchestrator) = o := by
        cases o
        simp_all
      rw [he]
  | some p =>
      obtain ⟨u, e⟩ := p
      have hu : u ≤ t0 := by
        unfold canStart at h
        rw [hr, hc] at h
        simpa using h
      dsimp only
      rw [if_neg (Nat.not_lt.mpr hu)]

/-- Helper: with no active cooldown, the status never reports
cooling-down. -/
theorem getSyncStatus_noCooldown (o : Orchestrator) (t : Millis)
    (hc : o.cooldown = none) :
    (getSyncStatus o t).isCoolingDown = false := by
  unfold getSyncStatus
  dsimp only
  rw [hc]

/-- Helper: an error-free sync pass leaves the orchestrator without a
cooldown. -/
theorem executeRun_cooldown_none (api : TwitterApi) (cfg : SyncConfig)
    (o : Orchestrator) (store : DataStore) (t0 t1 : Millis)
    (h : (runSync api cfg store o.tracker t0).errors = []) :
    (executeRun api cfg o store t0 t1).orch.cooldown = none := by
  unfold executeRun
  dsimp only
  rw [h]

theorem executeRun_log (api : TwitterApi) (cfg : SyncConfig)
    (o : Orchestrator) (store : DataStore) (t0 t1 : Millis) :
    (executeRun api cfg o store t0 t1).log
      = (runSync api cfg store o.tracker t0).warnings.map
          (fun m => { timestamp := t1, level := LogLevel.warn, message := m }) := rfl

/-- C9: a run that is allowed to start always hands back a stats record
whose errors field is a concrete (possibly empty) list — exactly the
failures the sync pass collected — and its emptiness coincides with the
absence of account-level failures: when every API call succeeds it is
empty, and when it is empty every tracked account either had its
timeline fetch succeed or was merely skipped with a rate-limit
warning. -/
theorem runStats_errors_defined (api : TwitterApi) (cfg : SyncConfig)
    (o : Orchestrator) (store : DataStore) (t0 t1 : Millis)
    (h : canStart o t0 = true) :
    ∃ stats, (runOnce api cfg o store t0 t1).result = Except.ok stats ∧
      stats.errors = (runSync api cfg store o.tracker t0).errors ∧
      (allCallsOk api → stats.errors = []) ∧
      (stats.errors = [] → ∀ a ∈ store.accounts,
        (∃ items, api.fetchTimeline a = Except.ok items) ∨
        rateLimitWarning a ∈ (runSync api cfg store o.tracker t0).warnings) := by
  obtain ⟨stats, hres, herr⟩ := runOnce_admitted api cfg o store t0 t1 h
  refine ⟨stats, hres, herr, ?_, ?_⟩
  · intro hok
    rw [herr]
    exact runSync_allOk_errors api cfg store o.tracker t0 hok
  · intro hemp a ha
    rw [herr] at hemp
    exact runSync_no_errors api cfg store o.tracker t0 hemp a ha

/-- Witness for C9 at a concrete input. -/
theorem runStats_errors_defined_witness :
    canStart oIdle 10 = true ∧
    (∃ stats, (runOnce apiOk cfgEx oIdle storeEx 10 25).result = Except.ok stats ∧
      stats.errors = (runSync apiOk cfgEx storeEx oIdle.tracker 10).errors ∧
      (allCallsOk apiOk → stats.errors = []) ∧
      (stats.errors = [] → ∀ a ∈ storeEx.accounts,
        (∃ items, apiOk.fetchTimeline a = Except.ok items) ∨
        rateLimitWarning a ∈ (runSync apiOk cfgEx storeEx oIdle.tracker 10).warnings)) :=
  ⟨by decide, runStats_errors_defined apiOk cfgEx oIdle storeEx 10 25 (by decide)⟩

/-- Counterexample to C4 as stated: in the run over `apiBoom` with budget
for a single request, account 2's discovery reservation is denied and
the rate-limit warning recorded, yet the run does not end Idle — account
1's API error sends the orchestrator into CoolingDown. -/
theorem rateDenied_not_always_idle :
    rateLimitWarning 2 ∈ (runSync apiBoom cfgEx storeEx trkTight 10).warnings ∧
    (runOnce apiBoom cfgEx oTight storeEx 10 25).orch.cooldown ≠ none := by
  constructor
  · decide
  · decide

/-- C4 (amended): a discovery-request denial is a recoverable warning,
not an error: the denied account is skipped with a warn-level log entry,
every account is still visited, the denial is not appended to the error
list and — provided no account-level API failure occurred in the run
(here: every API call succeeds) — the run ends Idle, not CoolingDown. -/
theorem rateDenied_skips_account (api : TwitterApi) (cfg : SyncConfig)
    (o : Orchestrator) (store : DataStore) (t0 t1 : Millis) (a : Nat)
    (h : canStart o t0 = true) (hok : allCallsOk api)
    (hden : rateLimitWarning a ∈ (runSync api cfg store o.tracker t0).warnings) :
    (∃ stats, (runOnce api cfg o store t0 t1).result = Except.ok stats ∧
      stats.errors = [] ∧
      stats.accountsProcessed = store.accounts.length) ∧
    (runOnce api cfg o store t0 t1).orch.cooldown = none ∧
    (getSyncStatus (runOnce api cfg o store t0 t1).orch t1).isCoolingDown = false ∧
    ({ timestamp := t1, level := LogLevel.warn, message := rateLimitWarning a }
        : LogEntry) ∈ (runOnce api cfg o store t0 t1).log := by
  have heq := runOnce_admitted_eq api cfg o store t0 t1 h
  have herrs : (runSync api cfg store o.tracker t0).errors = [] :=
    runSync_allOk_errors api cfg store o.tracker t0 hok
  have hcool : (runOnce api cfg o store t0 t1).orch.cooldown = none := by
    rw [heq]
    exact executeRun_cooldown_none api cfg _ store t0 t1 herrs
  refine ⟨?_, hcool, getSyncStatus_noCooldown _ t1 hcool, ?_⟩
  · refine ⟨_, by rw [heq]; exact executeRun_result api cfg _ store t0 t1, ?_, ?_⟩
    · exact herrs
    · exact runSync_accountsProcessed api cfg store _ t0
  · rw [heq, executeRun_log]
    exact List.mem_map_of_mem _ hden

/-- Witness for the amended C4 at a concrete input: with no budget at
all, both accounts are rate-denied, every API call succeeds, and the run
ends Idle with the warnings logged. -/
theorem rateDenied_skips_account_witness :
    canStart oZero 10 = true ∧
    rateLimitWarning 1 ∈ (runSync apiOk cfgEx storeEx oZero.tracker 10).warnings ∧
    ((∃ stats, (runOnce apiOk cfgEx oZero storeEx 10 25).result = Except.ok stats ∧
      stats.errors = [] ∧
      stats.accountsProcessed = storeEx.accounts.length) ∧
    (runOnce apiOk cfgEx oZero storeEx 10 25).orch.cooldown = none ∧
    (getSyncStatus (runOnce apiOk cfgEx oZero storeEx 10 25).orch 25).isCoolingDown
      = false ∧
    ({ timestamp := 25, level := LogLevel.warn, message := rateLimitWarning 1 }
        : LogEntry) ∈ (runOnce apiOk cfgEx oZero storeEx 10 25).log) :=
  ⟨by decide, by decide,
    rateDenied_skips_account apiOk cfgEx oZero storeEx 10 25 1 (by decide)
      ⟨fun a => ⟨[itemEx], rfl⟩, fun i => ⟨metZero, rfl⟩⟩ (by decide)⟩

/-- C7: a post id absent from the store that appears in an account's
successfully fetched, in-window timeline data, during a run with no
rate-limit skips, is inserted exactly once: afterwards the store holds
exactly one post with that id and the store grew by exactly
`tweetsAdded` posts; a second run over identical fetched data does not
insert it again, whatever rate window and start time the second run
gets. -/
theorem newPost_inserted_once (api : TwitterApi) (cfg : SyncConfig)
    (store : DataStore) (tr : RateWindow) (t0 : Millis) (i a : Nat)
    (items : List TimelineItem) (it : TimelineItem)
    (h0 : idCount store.posts i = 0)
    (hnw : (runSync api cfg store tr t0).warnings = [])
    (ha : a ∈ store.accounts)
    (hF : api.fetchTimeline a = Except.ok items)
    (hmem : it ∈ items) (hid : it.id = i)
    (hcut : t0 - cfg.daysToLookBack * msPerDay ≤ it.createdAt) :
    idCount (runSync api cfg store tr t0).posts i = 1 ∧
    (runSync api cfg store tr t0).posts.length
      = store.posts.length + (runSync api cfg store tr t0).tweetsAdded ∧
    (∀ (tr2 : RateWindow) (t2 : Millis),
      idCount (runSync api cfg
        { accounts := store.accounts, posts := (runSync api cfg store tr t0).posts }
        tr2 t2).posts i = 1) := by
  have h1 := runSync_inserts api cfg store tr t0 i a items it
    h0 hnw ha hF hmem hid hcut
  refine ⟨h1, runSync_len api cfg store tr t0, ?_⟩
  intro tr2 t2
  rw [runSync_idCount_pres]
  · exact h1
  · show 0 < idCount (runSync api cfg store tr t0).posts i
    omega

/-- Witness for C7 at a concrete input: id 101 is fresh, fetched for
account 1, inserted once, and not re-inserted by a second run. -/
theorem newPost_inserted_once_witness :
    idCount storeEx.posts 101 = 0 ∧
    (runSync apiOk cfgEx storeEx trkEx 10).warnings = [] ∧
    (1 : Nat) ∈ storeEx.accounts ∧
    apiOk.fetchTimeline 1 = Except.ok [itemEx] ∧
    itemEx ∈ [itemEx] ∧ itemEx.id = 101 ∧
    10 - cfgEx.daysToLookBack * msPerDay ≤ itemEx.createdAt ∧
    idCount (runSync apiOk cfgEx storeEx trkEx 10).posts 101 = 1 ∧
    (runSync apiOk cfgEx storeEx trkEx 10).posts.length
      = storeEx.posts.length + (runSync apiOk cfgEx storeEx trkEx 10).tweetsAdded ∧
    idCount (runSync apiOk cfgEx
      { accounts := storeEx.accounts, posts := (runSync apiOk cfgEx storeEx trkEx 10).posts }
      trkEx 20).posts 101 = 1 :=
  ⟨rfl, by decide, by decide, rfl, by decide, rfl, by decide,
   (newPost_inserted_once apiOk cfgEx storeEx trkEx 10 101 1 [itemEx] itemEx
     rfl (by decide) (by decide) rfl (by decide) rfl (by decide)).1,
   (newPost_inserted_once apiOk cfgEx storeEx trkEx 10 101 1 [itemEx] itemEx
     rfl (by decide) (by decide) rfl (by decide) rfl (by decide)).2.1,
   (newPost_inserted_once apiOk cfgEx storeEx trkEx 10 101 1 [itemEx] itemEx
     rfl (by decide) (by decide) rfl (by decide) rfl (by decide)).2.2 trkEx 20⟩
